import Mathlib

/-!
Shallow embedding of the UrbanTrack server engine (`src/server/index.js`):
great-circle distance, the anti-cheat speed gate, per-kilometre scoring,
milestone badges, daily/weekly challenge windows and the broadcast layer,
together with theorems checking the claims of the specification against it.

Modelling conventions:
* JS numbers are modelled as real numbers; timestamps are integers
  (milliseconds since the Unix epoch).
* `Date` arithmetic is modelled with the process timezone set to UTC, so
  `getDay`/`getDate`/`setDate` agree with the UTC calendar that
  `toISOString` prints.  A calendar-date string `"YYYY-MM-DD"` is
  represented by its day number (days since 1970-01-01), which is in
  bijection with the strings the source stores in `lastReset`.
* JS objects used as string-keyed maps become functions `String → Option _`.
* The truthiness tests of the source (`payload.ts || now`, `last.ts`,
  `rider.score || 0`, `if (pointsGained)`) are modelled by explicit
  zero/empty tests.
-/

namespace UrbanTrack

/-- JS `x || 0` on a number (NaN aside): `0` when `x = 0`, otherwise `x`.
It is provably the identity; it is kept so that every `(e || 0)` of the
source has a visible counterpart. -/
noncomputable def orZero (x : ℝ) : ℝ := if x = 0 then 0 else x

theorem orZero_eq (x : ℝ) : orZero x = x := by
  unfold orZero; split <;> simp_all

/-- Configuration constant `MAX_SPEED_KMH = 140` of `src/server/index.js`. -/
def MAX_SPEED_KMH : ℝ := 140

/-- Configuration constant `POINTS_PER_KM = 10` of `src/server/index.js`. -/
def POINTS_PER_KM : ℤ := 10

/-- Configuration constant `BADGE_MILESTONES_METERS` of `src/server/index.js`. -/
def BADGE_MILESTONES_METERS : List ℕ := [1000, 5000, 10000, 25000, 50000, 100000]

/-- `toRad` of `src/server/index.js`: degrees to radians. -/
noncomputable def toRad (d : ℝ) : ℝ := d * Real.pi / 180

/-- JS `Math.atan2(y, x)`, by its standard piecewise definition. -/
noncomputable def atan2 (y x : ℝ) : ℝ :=
  if 0 < x then Real.arctan (y / x)
  else if x < 0 ∧ 0 ≤ y then Real.arctan (y / x) + Real.pi
  else if x < 0 ∧ y < 0 then Real.arctan (y / x) - Real.pi
  else if x = 0 ∧ 0 < y then Real.pi / 2
  else if x = 0 ∧ y < 0 then -(Real.pi / 2)
  else 0

/-- `haversineMeters` of `src/server/index.js`: great-circle distance between
`(alat, alon)` and `(blat, blon)` with Earth radius 6 371 000 m. -/
noncomputable def haversineMeters (alat alon blat blon : ℝ) : ℝ :=
  let R : ℝ := 6371000
  let dLat := toRad (blat - alat)
  let dLon := toRad (blon - alon)
  let lat1 := toRad alat
  let lat2 := toRad blat
  let sinDlat := Real.sin (dLat / 2)
  let sinDlon := Real.sin (dLon / 2)
  let inside := sinDlat * sinDlat + Real.cos lat1 * Real.cos lat2 * sinDlon * sinDlon
  let c := 2 * atan2 (Real.sqrt inside) (Real.sqrt (1 - inside))
  R * c

theorem arctan_nonneg {x : ℝ} (h : 0 ≤ x) : 0 ≤ Real.arctan x := by
  have := Real.arctan_strictMono.monotone h
  simpa [Real.arctan_zero] using this

theorem atan2_nonneg {y x : ℝ} (hy : 0 ≤ y) (hx : 0 ≤ x) : 0 ≤ atan2 y x := by
  unfold atan2
  split_ifs with h1 h2 h3 h4 h5
  · exact arctan_nonneg (div_nonneg hy (le_of_lt h1))
  · exact absurd h2.1 (not_lt.mpr hx)
  · exact absurd h3.1 (not_lt.mpr hx)
  · positivity
  · exact absurd h5.2 (not_lt.mpr hy)
  · exact le_refl 0

theorem haversineMeters_nonneg (alat alon blat blon : ℝ) :
    0 ≤ haversineMeters alat alon blat blon := by
  have key : ∀ i : ℝ, 0 ≤ (6371000 : ℝ) * (2 * atan2 (Real.sqrt i) (Real.sqrt (1 - i))) := by
    intro i
    have h := atan2_nonneg (Real.sqrt_nonneg i) (Real.sqrt_nonneg (1 - i))
    positivity
  unfold haversineMeters
  exact key _

theorem haversineMeters_self (lat lon : ℝ) : haversineMeters lat lon lat lon = 0 := by
  unfold haversineMeters atan2 toRad
  norm_num

theorem haversineMeters_antipodal : haversineMeters 0 0 180 0 = 6371000 * Real.pi := by
  unfold haversineMeters toRad
  norm_num [atan2]
  ring

/-- Milliseconds in a calendar day. -/
def MS_PER_DAY : ℤ := 86400000

/-- The UTC calendar date of a timestamp, as a day number: the model of
`new Date(t).toISOString().slice(0,10)`. -/
def dayKey (t : ℤ) : ℤ := t.fdiv MS_PER_DAY

/-- JS `new Date(t).getDay()` with the process timezone UTC:
day of the week, Sunday = 0 (1970-01-01 was a Thursday = 4). -/
def jsGetDay (t : ℤ) : ℤ := (dayKey t + 4) % 7

/-- The instant reached from `t` by `start.setDate(now.getDate() - diff)`
with `diff = (getDay() + 6) % 7`: same time of day, `diff` days earlier. -/
def weekStartMs (t : ℤ) : ℤ := t - (jsGetDay t + 6) % 7 * MS_PER_DAY

/-- The weekly window key of `src/server/index.js`: the UTC date of the
Monday on or before `t`, as a day number. -/
def weekKey (t : ℤ) : ℤ := dayKey (weekStartMs t)

theorem dayKey_eq_ediv (t : ℤ) : dayKey t = t / 86400000 :=
  Int.fdiv_eq_ediv t (by decide)

theorem weekKey_eq (t : ℤ) : weekKey t = dayKey t - (jsGetDay t + 6) % 7 := by
  have h7 : ((jsGetDay t + 6) % 7) * MS_PER_DAY = dayKey t * MS_PER_DAY -
      (dayKey t - (jsGetDay t + 6) % 7) * MS_PER_DAY := by ring
  unfold weekKey weekStartMs
  rw [dayKey_eq_ediv, dayKey_eq_ediv]
  unfold jsGetDay MS_PER_DAY
  rw [dayKey_eq_ediv]
  omega

theorem weekKey_le_dayKey (t : ℤ) : weekKey t ≤ dayKey t := by
  rw [weekKey_eq]
  unfold jsGetDay
  omega

theorem dayKey_sub_weekKey_lt_seven (t : ℤ) : dayKey t - weekKey t < 7 := by
  rw [weekKey_eq]
  unfold jsGetDay
  omega

/-- The week-start day found by the source is a Monday (`getDay() = 1`). -/
theorem weekKey_is_monday (t : ℤ) : (weekKey t + 4) % 7 = 1 := by
  rw [weekKey_eq]
  unfold jsGetDay
  omega

/-- A stored fix `{lat, lon, ts}` (`rider.last` and history entries keep
coordinates and a timestamp). -/
structure Pos where
  lat : ℝ
  lon : ℝ
  ts : ℤ

/-- An entry of `rider.history`: `{lat, lon, ts, meters: Math.round(meters)}`. -/
structure HistEntry where
  lat : ℝ
  lon : ℝ
  ts : ℤ
  meters : ℤ

/-- Per-rider, per-challenge progress `{progressMeters, lastReset, completed}`
plus the `completedAt` stamp written on completion.  `lastReset` holds the
window key (a date, modelled as a day number), `none` until first touched. -/
structure Prog where
  progressMeters : ℝ
  lastReset : Option ℤ
  completed : Bool
  completedAt : Option ℤ

/-- A challenge definition `{id, name, period, targetMeters}`;
`period` is the literal string of the source (`"daily"` / `"weekly"`). -/
structure Challenge where
  id : String
  name : String
  period : String
  targetMeters : ℝ

/-- A rider record of `DATA.riders`. -/
structure Rider where
  id : String
  name : String
  last : Option Pos
  history : List HistEntry
  distance : ℝ
  score : ℝ
  badges : List String
  challenges : String → Option Prog
  suspicious : ℕ
  updatedAt : ℤ

/-- A decoded position payload `{id, lat, lon, ts?}`;  `lat`/`lon` are `none`
when absent or not a number, `id = ""` models a missing/falsy id. -/
structure Payload where
  id : String
  lat : Option ℝ
  lon : Option ℝ
  ts : Option ℤ

/-- The acknowledgment `{accepted, reason?, id?}` returned by `handlePosition`. -/
structure Ack where
  accepted : Bool
  reason : Option String
  ackId : Option String

/-- A newly earned badge `{id, label}` as pushed by `checkAndAwardBadges`. -/
structure BadgeEvent where
  id : String
  label : String
deriving DecidableEq

/-- A `challenge_completed` event `{challengeId, riderId, bonusPoints}`. -/
structure CEvent where
  challengeId : String
  riderId : String
  bonusPoints : ℤ
deriving DecidableEq

/-- A broadcast message: `rider_update` or `game_event`. -/
inductive Msg where
  | riderUpdate (id name : String) (lat lon : ℝ) (distance : ℤ) (score : ℝ)
  | gameEvent (riderId name : String) (kmsGained pointsGained : ℤ)
      (newBadges : List BadgeEvent) (challengeEvents : List CEvent)

/-- The in-memory server state relevant to the engine: `DATA.riders` and
`DATA.challenges`; the latter is a list because the source iterates
`Object.entries(DATA.challenges)` in insertion order. -/
structure ServerState where
  riders : String → Option Rider
  challenges : List Challenge

/-- The seeded challenge `daily_1km` of `src/server/index.js`. -/
def daily_1km : Challenge := ⟨"daily_1km", "1 km par jour", "daily", 1000⟩

/-- The seeded challenge `weekly_5km` of `src/server/index.js`. -/
def weekly_5km : Challenge := ⟨"weekly_5km", "5 km par semaine", "weekly", 5000⟩

/-- The default challenge table ensured at startup. -/
def defaultChallenges : List Challenge := [daily_1km, weekly_5km]

/-- The fresh progress record `{progressMeters: 0, lastReset: null, completed: false}`
created when a rider first meets a challenge. -/
def initProg : Prog := ⟨0, none, false, none⟩

/-- The window-rollover check of `updateChallengesForRider` (lines 135-142):
recompute the window key from the sample timestamp `t` and reset the
progress when it differs from the stored `lastReset`. -/
def rolloverProg (chal : Challenge) (t : ℤ) (prog : Prog) : Prog :=
  if chal.period = "daily" then
    let k := dayKey t
    if prog.lastReset ≠ some k then
      { prog with progressMeters := 0, lastReset := some k, completed := false }
    else prog
  else if chal.period = "weekly" then
    let k := weekKey t
    if prog.lastReset ≠ some k then
      { prog with progressMeters := 0, lastReset := some k, completed := false }
    else prog
  else prog

/-- Result of `awardPointsPerKm`: the returned `{kmsGained, pointsGained}`
and the score of the rider after the mutation. -/
structure AwardResult where
  kmsGained : ℤ
  pointsGained : ℤ
  score : ℝ

/-- Result of `checkAndAwardBadges`: the badge list of the rider after the
mutation and the returned list of newly earned badges. -/
structure BadgeCheckResult where
  badges : List String
  newly : List BadgeEvent

/-- The model of `ts || now` defaults used at lines 157 and 131 of the
source: a missing or zero timestamp falls back to the clock. -/
def tsOf (pts : Option ℤ) (now : ℤ) : ℤ :=
  match pts with
  | none => now
  | some t => if t = 0 then now else t

noncomputable section

/-- `awardPointsPerKm` of `src/server/index.js` (lines 119-126), acting on
the score of the rider. -/
def awardPointsPerKm (score : ℝ) (prevDistance newDistance : ℝ) : AwardResult :=
  let prevKm := ⌊orZero prevDistance / 1000⌋
  let newKm := ⌊newDistance / 1000⌋
  let kmsGained := max 0 (newKm - prevKm)
  let pointsGained := kmsGained * POINTS_PER_KM
  let score1 := if pointsGained ≠ 0 then orZero score + (pointsGained : ℝ) else score
  ⟨kmsGained, pointsGained, score1⟩

/-- The badge identifier string built at line 109: `'badge_' + m`. -/
def badgeId (m : ℕ) : String := "badge_" ++ toString m

/-- The badge event pushed at line 112: `{ id, label: (m/1000)+' km' }`. -/
def badgeEventFor (m : ℕ) : BadgeEvent := ⟨badgeId m, toString (m / 1000) ++ " km"⟩

/-- The body of the milestone loop of `checkAndAwardBadges` (lines 107-115):
award milestone `m` when `prevDistance < m ≤ newDistance` and the badge is
not already held. -/
def badgeFoldStep (prevDistance newDistance : ℝ)
    (acc : List String × List BadgeEvent) (m : ℕ) : List String × List BadgeEvent :=
  if orZero prevDistance < (m : ℝ) ∧ (m : ℝ) ≤ newDistance then
    if badgeId m ∈ acc.1 then acc
    else (acc.1 ++ [badgeId m], acc.2 ++ [badgeEventFor m])
  else acc

/-- `checkAndAwardBadges` of `src/server/index.js` (lines 104-117), acting on
the badge list of the rider. -/
def checkAndAwardBadges (badges : List String) (prevDistance newDistance : ℝ) :
    BadgeCheckResult :=
  let fin := BADGE_MILESTONES_METERS.foldl (badgeFoldStep prevDistance newDistance)
    (badges, ([] : List BadgeEvent))
  ⟨fin.1, fin.2⟩

/-- One iteration of the challenge loop of `updateChallengesForRider`
(lines 132-151) for the challenge `chal`: rollover check, then — unless the
window is already completed — accumulate `addedMeters` and possibly complete,
award the bonus and push a `challenge_completed` event. -/
def challengeStep (now t : ℤ) (addedMeters : ℝ) (chal : Challenge)
    (acc : Rider × List CEvent) : Rider × List CEvent :=
  let rider := acc.1
  let events := acc.2
  let prog0 := (rider.challenges chal.id).getD initProg
  let prog1 := rolloverProg chal t prog0
  if prog1.completed then
    ({ rider with challenges := fun s => if s = chal.id then some prog1 else rider.challenges s },
     events)
  else
    let p2 := prog1.progressMeters + addedMeters
    if chal.targetMeters ≤ p2 then
      let bonus := ⌊chal.targetMeters / 1000⌋ * 5
      let prog2 : Prog := ⟨p2, prog1.lastReset, true, some now⟩
      ({ rider with
         challenges := fun s => if s = chal.id then some prog2 else rider.challenges s,
         score := orZero rider.score + (bonus : ℝ) },
       events ++ [⟨chal.id, rider.id, bonus⟩])
    else
      let prog2 : Prog := { prog1 with progressMeters := p2 }
      ({ rider with challenges := fun s => if s = chal.id then some prog2 else rider.challenges s },
       events)

/-- `updateChallengesForRider` of `src/server/index.js` (lines 128-153):
fold the per-challenge step over the challenge table; `ts` is the sample
timestamp (defaulting to `now` when zero, line 131), `now` is `Date.now()`
used only for the `completedAt` stamp. -/
def updateChallengesForRider (challenges : List Challenge) (rider : Rider)
    (addedMeters : ℝ) (ts now : ℤ) : Rider × List CEvent :=
  let t := if ts = 0 then now else ts
  challenges.foldl (fun acc chal => challengeStep now t addedMeters chal acc) (rider, [])

/-- Outcome of the accepted-sample block of `handlePosition` (lines 167-174):
the rider after distance/history/score/badge/challenge mutation plus the
values the broadcasts are built from. -/
structure AcceptResult where
  rider : Rider
  kmsGained : ℤ
  pointsGained : ℤ
  newBadges : List BadgeEvent
  challengeEvents : List CEvent

/-- Lines 167-174 of `handlePosition`: accrue `meters`, push the history
entry (capacity 200, oldest evicted), then apply scoring, badges and
challenges. -/
def acceptSample (challenges : List Challenge) (rider : Rider) (plat plon : ℝ)
    (meters : ℝ) (ts now : ℤ) : AcceptResult :=
  let newDistance := orZero rider.distance + meters
  let hist1 := rider.history ++ [⟨plat, plon, ts, round meters⟩]
  let hist2 := if 200 < hist1.length then hist1.tail else hist1
  let prevDistance := newDistance - meters
  let aw := awardPointsPerKm rider.score prevDistance newDistance
  let cb := checkAndAwardBadges rider.badges prevDistance newDistance
  let rider2 : Rider :=
    { rider with
        distance := newDistance
        history := hist2
        score := aw.score
        badges := cb.badges }
  let uc := updateChallengesForRider challenges rider2 meters ts now
  ⟨uc.1, aw.kmsGained, aw.pointsGained, cb.newly, uc.2⟩

/-- Replace the rider stored under `i` (assignment into `DATA.riders`). -/
def setRider (st : ServerState) (i : String) (r : Rider) : ServerState :=
  { st with riders := fun s => if s = i then some r else st.riders s }

/-- The implied speed in km/h of `handlePosition` line 165:
`dt = dtMs/1000`, `speedMs = dt > 0 ? meters/dt : 0`, `speedKmh = speedMs*3.6`. -/
def impliedSpeedKmh (meters : ℝ) (dtMs : ℤ) : ℝ :=
  let dt : ℝ := (dtMs : ℝ) / 1000
  let speedMs := if 0 < dt then meters / dt else 0
  speedMs * 3.6

/-- `handlePosition` of `src/server/index.js` (lines 155-183).  Returns the
new server state, the acknowledgment sent to the submitting connection, and
the list of broadcast messages (in emission order).  `now` is `Date.now()`. -/
def handlePosition (st : ServerState) (payload : Option Payload) (now : ℤ) :
    ServerState × Ack × List Msg :=
  match payload with
  | none => (st, ⟨false, some "invalid", none⟩, [])
  | some p =>
    match p.lat, p.lon with
    | some plat, some plon =>
      if p.id = "" then (st, ⟨false, some "invalid", none⟩, [])
      else
        let ts := tsOf p.ts now
        match st.riders p.id with
        | none => (st, ⟨false, some "unknown_rider", none⟩, [])
        | some rider =>
          match rider.last with
          | some l =>
            if l.ts ≠ 0 ∧ l.ts < ts then
              let meters := haversineMeters l.lat l.lon plat plon
              let speedKmh := impliedSpeedKmh meters (ts - l.ts)
              if MAX_SPEED_KMH < speedKmh then
                (setRider st p.id { rider with suspicious := rider.suspicious + 1 },
                 ⟨false, some "speed", none⟩, [])
              else
                let a := acceptSample st.challenges rider plat plon meters ts now
                let msgs :=
                  Msg.riderUpdate a.rider.id a.rider.name plat plon
                    (round a.rider.distance) a.rider.score ::
                  (if 0 < a.kmsGained ∨ a.newBadges ≠ [] ∨ a.challengeEvents ≠ [] then
                    [Msg.gameEvent a.rider.id a.rider.name a.kmsGained a.pointsGained
                      a.newBadges a.challengeEvents]
                  else [])
                let rider4 := { a.rider with last := some ⟨plat, plon, ts⟩, updatedAt := now }
                (setRider st p.id rider4, ⟨true, none, some rider.id⟩, msgs)
            else
              (setRider st p.id { rider with last := some ⟨plat, plon, ts⟩, updatedAt := now },
               ⟨true, none, some rider.id⟩, [])
          | none =>
            (setRider st p.id { rider with last := some ⟨plat, plon, ts⟩, updatedAt := now },
             ⟨true, none, some rider.id⟩, [])
    | _, _ => (st, ⟨false, some "invalid", none⟩, [])

/-- Process a list of `(payload, Date.now())` samples in order, keeping the
resulting server state. -/
def processList (st : ServerState) (samples : List (Payload × ℤ)) : ServerState :=
  samples.foldl (fun s pr => (handlePosition s (some pr.1) pr.2).1) st

end

theorem hp_refresh_some (st : ServerState) (p : Payload) (now : ℤ)
    (plat plon : ℝ) (r : Rider) (l : Pos)
    (hlat : p.lat = some plat) (hlon : p.lon = some plon) (hid : p.id ≠ "")
    (hr : st.riders p.id = some r) (hl : r.last = some l)
    (hcond : ¬(l.ts ≠ 0 ∧ l.ts < tsOf p.ts now)) :
    handlePosition st (some p) now =
      (setRider st p.id { r with last := some ⟨plat, plon, tsOf p.ts now⟩, updatedAt := now },
       ⟨true, none, some r.id⟩, []) := by
  obtain ⟨pid, plat0, plon0, pts0⟩ := p
  simp only at hlat hlon hid hr hcond ⊢
  subst hlat hlon
  simp only [handlePosition, hr, hl, if_neg hid, if_neg hcond]

theorem hp_refresh_none (st : ServerState) (p : Payload) (now : ℤ)
    (plat plon : ℝ) (r : Rider)
    (hlat : p.lat = some plat) (hlon : p.lon = some plon) (hid : p.id ≠ "")
    (hr : st.riders p.id = some r) (hl : r.last = none) :
    handlePosition st (some p) now =
      (setRider st p.id { r with last := some ⟨plat, plon, tsOf p.ts now⟩, updatedAt := now },
       ⟨true, none, some r.id⟩, []) := by
  obtain ⟨pid, plat0, plon0, pts0⟩ := p
  simp only at hlat hlon hid hr ⊢
  subst hlat hlon
  simp only [handlePosition, hr, hl, if_neg hid]

theorem hp_speed (st : ServerState) (p : Payload) (now : ℤ)
    (plat plon : ℝ) (r : Rider) (l : Pos)
    (hlat : p.lat = some plat) (hlon : p.lon = some plon) (hid : p.id ≠ "")
    (hr : st.riders p.id = some r) (hl : r.last = some l)
    (hcond : l.ts ≠ 0 ∧ l.ts < tsOf p.ts now)
    (hsp : MAX_SPEED_KMH <
      impliedSpeedKmh (haversineMeters l.lat l.lon plat plon) (tsOf p.ts now - l.ts)) :
    handlePosition st (some p) now =
      (setRider st p.id { r with suspicious := r.suspicious + 1 },
       ⟨false, some "speed", none⟩, []) := by
  obtain ⟨pid, plat0, plon0, pts0⟩ := p
  simp only at hlat hlon hid hr hcond hsp ⊢
  subst hlat hlon
  simp only [handlePosition, hr, hl, if_neg hid, if_pos hcond, if_pos hsp]

theorem hp_accept (st : ServerState) (p : Payload) (now : ℤ)
    (plat plon : ℝ) (r : Rider) (l : Pos)
    (hlat : p.lat = some plat) (hlon : p.lon = some plon) (hid : p.id ≠ "")
    (hr : st.riders p.id = some r) (hl : r.last = some l)
    (hcond : l.ts ≠ 0 ∧ l.ts < tsOf p.ts now)
    (hsp : ¬(MAX_SPEED_KMH <
      impliedSpeedKmh (haversineMeters l.lat l.lon plat plon) (tsOf p.ts now - l.ts))) :
    handlePosition st (some p) now =
      (let a := acceptSample st.challenges r plat plon
        (haversineMeters l.lat l.lon plat plon) (tsOf p.ts now) now
      (setRider st p.id { a.rider with last := some ⟨plat, plon, tsOf p.ts now⟩, updatedAt := now },
       ⟨true, none, some r.id⟩,
       Msg.riderUpdate a.rider.id a.rider.name plat plon (round a.rider.distance) a.rider.score ::
         (if 0 < a.kmsGained ∨ a.newBadges ≠ [] ∨ a.challengeEvents ≠ [] then
           [Msg.gameEvent a.rider.id a.rider.name a.kmsGained a.pointsGained
             a.newBadges a.challengeEvents]
         else []))) := by
  obtain ⟨pid, plat0, plon0, pts0⟩ := p
  simp only at hlat hlon hid hr hcond hsp ⊢
  subst hlat hlon
  simp only [handlePosition, hr, hl, if_neg hid, if_pos hcond, if_neg hsp]

theorem challengeStep_fields (now t : ℤ) (d : ℝ) (chal : Challenge)
    (acc : Rider × List CEvent) :
    (challengeStep now t d chal acc).1.id = acc.1.id ∧
    (challengeStep now t d chal acc).1.name = acc.1.name ∧
    (challengeStep now t d chal acc).1.last = acc.1.last ∧
    (challengeStep now t d chal acc).1.history = acc.1.history ∧
    (challengeStep now t d chal acc).1.distance = acc.1.distance ∧
    (challengeStep now t d chal acc).1.badges = acc.1.badges ∧
    (challengeStep now t d chal acc).1.suspicious = acc.1.suspicious ∧
    (challengeStep now t d chal acc).1.updatedAt = acc.1.updatedAt := by
  unfold challengeStep
  dsimp only
  split_ifs <;> simp

theorem challengeStep_score_mono (now t : ℤ) (d : ℝ) (chal : Challenge)
    (acc : Rider × List CEvent) (h : 0 ≤ chal.targetMeters) :
    acc.1.score ≤ (challengeStep now t d chal acc).1.score := by
  have h0 : (0 : ℤ) ≤ ⌊chal.targetMeters / 1000⌋ := Int.floor_nonneg.mpr (by positivity)
  unfold challengeStep
  dsimp only
  split_ifs <;> simp [orZero_eq, h0]

theorem foldChal_fields (now t : ℤ) (d : ℝ) (chs : List Challenge)
    (acc : Rider × List CEvent) :
    let out := chs.foldl (fun a c => challengeStep now t d c a) acc
    out.1.id = acc.1.id ∧ out.1.name = acc.1.name ∧ out.1.last = acc.1.last ∧
    out.1.history = acc.1.history ∧ out.1.distance = acc.1.distance ∧
    out.1.badges = acc.1.badges ∧ out.1.suspicious = acc.1.suspicious ∧
    out.1.updatedAt = acc.1.updatedAt := by
  induction chs generalizing acc with
  | nil => simp
  | cons c cs ih =>
    obtain ⟨a1, a2, a3, a4, a5, a6, a7, a8⟩ := challengeStep_fields now t d c acc
    obtain ⟨b1, b2, b3, b4, b5, b6, b7, b8⟩ := ih (challengeStep now t d c acc)
    simp only [List.foldl_cons]
    exact ⟨b1.trans a1, b2.trans a2, b3.trans a3, b4.trans a4, b5.trans a5,
      b6.trans a6, b7.trans a7, b8.trans a8⟩

theorem foldChal_score_mono (now t : ℤ) (d : ℝ) (chs : List Challenge)
    (acc : Rider × List CEvent) (h : ∀ c ∈ chs, 0 ≤ c.targetMeters) :
    acc.1.score ≤ (chs.foldl (fun a c => challengeStep now t d c a) acc).1.score := by
  induction chs generalizing acc with
  | nil => simp
  | cons c cs ih =>
    simp only [List.foldl_cons]
    have h1 := challengeStep_score_mono now t d c acc (h c (by simp))
    have h2 := ih (challengeStep now t d c acc) (fun c hc => h c (by simp [hc]))
    linarith

theorem awardPointsPerKm_score_mono (score prevDistance newDistance : ℝ) :
    score ≤ (awardPointsPerKm score prevDistance newDistance).score := by
  unfold awardPointsPerKm
  dsimp only
  simp only [orZero_eq]
  split_ifs with h
  · have hz : (0 : ℤ) ≤ max 0 (⌊newDistance / 1000⌋ - ⌊prevDistance / 1000⌋) * POINTS_PER_KM := by
      unfold POINTS_PER_KM
      positivity
    have hr : (0 : ℝ) ≤
        ((max 0 (⌊newDistance / 1000⌋ - ⌊prevDistance / 1000⌋) * POINTS_PER_KM : ℤ) : ℝ) := by
      exact_mod_cast hz
    linarith
  · exact le_refl _

theorem updateChallenges_fields (challenges : List Challenge) (rider : Rider)
    (d : ℝ) (ts now : ℤ) :
    (updateChallengesForRider challenges rider d ts now).1.id = rider.id ∧
    (updateChallengesForRider challenges rider d ts now).1.name = rider.name ∧
    (updateChallengesForRider challenges rider d ts now).1.last = rider.last ∧
    (updateChallengesForRider challenges rider d ts now).1.history = rider.history ∧
    (updateChallengesForRider challenges rider d ts now).1.distance = rider.distance ∧
    (updateChallengesForRider challenges rider d ts now).1.badges = rider.badges ∧
    (updateChallengesForRider challenges rider d ts now).1.suspicious = rider.suspicious ∧
    (updateChallengesForRider challenges rider d ts now).1.updatedAt = rider.updatedAt := by
  unfold updateChallengesForRider
  dsimp only
  exact foldChal_fields now (if ts = 0 then now else ts) d challenges (rider, [])

theorem updateChallenges_score_mono (challenges : List Challenge) (rider : Rider)
    (d : ℝ) (ts now : ℤ) (h : ∀ c ∈ challenges, 0 ≤ c.targetMeters) :
    rider.score ≤ (updateChallengesForRider challenges rider d ts now).1.score := by
  unfold updateChallengesForRider
  dsimp only
  exact foldChal_score_mono now (if ts = 0 then now else ts) d challenges (rider, []) h

theorem acceptSample_distance (challenges : List Challenge) (rider : Rider)
    (plat plon meters : ℝ) (ts now : ℤ) :
    (acceptSample challenges rider plat plon meters ts now).rider.distance =
      orZero rider.distance + meters := by
  unfold acceptSample
  dsimp only
  rw [(updateChallenges_fields challenges _ meters ts now).2.2.2.2.1]

theorem acceptSample_score_ge (challenges : List Challenge) (rider : Rider)
    (plat plon meters : ℝ) (ts now : ℤ) (h : ∀ c ∈ challenges, 0 ≤ c.targetMeters) :
    rider.score ≤ (acceptSample challenges rider plat plon meters ts now).rider.score := by
  unfold acceptSample
  dsimp only
  refine le_trans ?_ (updateChallenges_score_mono challenges _ meters ts now h)
  exact awardPointsPerKm_score_mono rider.score (orZero rider.distance + meters - meters)
    (orZero rider.distance + meters)

theorem acceptSample_id_name (challenges : List Challenge) (rider : Rider)
    (plat plon meters : ℝ) (ts now : ℤ) :
    (acceptSample challenges rider plat plon meters ts now).rider.id = rider.id ∧
    (acceptSample challenges rider plat plon meters ts now).rider.name = rider.name := by
  unfold acceptSample
  dsimp only
  exact ⟨(updateChallenges_fields challenges _ meters ts now).1,
    (updateChallenges_fields challenges _ meters ts now).2.1⟩

theorem hp_payload_none (st : ServerState) (now : ℤ) :
    handlePosition st none now = (st, ⟨false, some "invalid", none⟩, []) := rfl

theorem hp_invalid_lat (st : ServerState) (p : Payload) (now : ℤ) (hlat : p.lat = none) :
    handlePosition st (some p) now = (st, ⟨false, some "invalid", none⟩, []) := by
  obtain ⟨pid, plat0, plon0, pts0⟩ := p
  simp only at hlat
  subst hlat
  simp only [handlePosition]

theorem hp_invalid_lon (st : ServerState) (p : Payload) (now : ℤ) (hlon : p.lon = none) :
    handlePosition st (some p) now = (st, ⟨false, some "invalid", none⟩, []) := by
  obtain ⟨pid, plat0, plon0, pts0⟩ := p
  simp only at hlon
  subst hlon
  simp only [handlePosition]

theorem hp_invalid_id (st : ServerState) (p : Payload) (now : ℤ) (hid : p.id = "") :
    handlePosition st (some p) now = (st, ⟨false, some "invalid", none⟩, []) := by
  obtain ⟨pid, plat0, plon0, pts0⟩ := p
  simp only at hid
  subst hid
  simp only [handlePosition]
  rcases plat0 with _ | plat <;> rcases plon0 with _ | plon <;> simp

theorem hp_unknown (st : ServerState) (p : Payload) (now : ℤ)
    (plat plon : ℝ) (hlat : p.lat = some plat) (hlon : p.lon = some plon)
    (hid : p.id ≠ "") (hr : st.riders p.id = none) :
    handlePosition st (some p) now = (st, ⟨false, some "unknown_rider", none⟩, []) := by
  obtain ⟨pid, plat0, plon0, pts0⟩ := p
  simp only at hlat hlon hid hr
  subst hlat hlon
  simp only [handlePosition, hr, if_neg hid]

theorem setRider_lookup (st : ServerState) (j i : String) (x : Rider) :
    (setRider st j x).riders i = if i = j then some x else st.riders i := rfl

theorem rider_upd_last_fields (x : Rider) (pp : Option Pos) (u : ℤ) :
    ({ x with last := pp, updatedAt := u } : Rider).distance = x.distance ∧
    ({ x with last := pp, updatedAt := u } : Rider).score = x.score ∧
    ({ x with last := pp, updatedAt := u } : Rider).id = x.id ∧
    ({ x with last := pp, updatedAt := u } : Rider).name = x.name ∧
    ({ x with last := pp, updatedAt := u } : Rider).badges = x.badges ∧
    ({ x with last := pp, updatedAt := u } : Rider).challenges = x.challenges ∧
    ({ x with last := pp, updatedAt := u } : Rider).suspicious = x.suspicious :=
  ⟨rfl, rfl, rfl, rfl, rfl, rfl, rfl⟩

theorem handlePosition_rider_mono (st : ServerState) (payload : Option Payload) (now : ℤ)
    (hchal : ∀ c ∈ st.challenges, 0 ≤ c.targetMeters) (i : String) (r r' : Rider)
    (hr : st.riders i = some r)
    (hr' : (handlePosition st payload now).1.riders i = some r') :
    r.distance ≤ r'.distance ∧ r.score ≤ r'.score := by
  have triv : ∀ x : Rider, st.riders i = some x → r.distance ≤ x.distance ∧ r.score ≤ x.score := by
    intro x hx
    rw [hr] at hx
    injection hx with h
    subst h
    exact ⟨le_refl _, le_refl _⟩
  match payload with
  | none =>
    rw [hp_payload_none] at hr'
    exact triv r' hr'
  | some p =>
    rcases hlat : p.lat with _ | plat
    · rw [hp_invalid_lat st p now hlat] at hr'
      exact triv r' hr'
    rcases hlon : p.lon with _ | plon
    · rw [hp_invalid_lon st p now hlon] at hr'
      exact triv r' hr'
    by_cases hid : p.id = ""
    · rw [hp_invalid_id st p now hid] at hr'
      exact triv r' hr'
    rcases hrp : st.riders p.id with _ | r0
    · rw [hp_unknown st p now plat plon hlat hlon hid hrp] at hr'
      exact triv r' hr'
    have fromSet : ∀ x : Rider, (setRider st p.id x).riders i = some r' →
        x.distance = r0.distance → x.score = r0.score →
        r.distance ≤ r'.distance ∧ r.score ≤ r'.score := by
      intro x hx hd hs
      rw [setRider_lookup] at hx
      by_cases hip : i = p.id
      · rw [if_pos hip] at hx
        injection hx with h
        rw [hip, hrp] at hr
        injection hr with h2
        rw [← h2, ← h, hd, hs]
        exact ⟨le_refl _, le_refl _⟩
      · rw [if_neg hip] at hx
        exact triv r' hx
    rcases hl : r0.last with _ | l
    · rw [hp_refresh_none st p now plat plon r0 hlat hlon hid hrp hl] at hr'
      exact fromSet _ hr' rfl rfl
    by_cases hcond : l.ts ≠ 0 ∧ l.ts < tsOf p.ts now
    · by_cases hsp : MAX_SPEED_KMH <
          impliedSpeedKmh (haversineMeters l.lat l.lon plat plon) (tsOf p.ts now - l.ts)
      · rw [hp_speed st p now plat plon r0 l hlat hlon hid hrp hl hcond hsp] at hr'
        exact fromSet _ hr' rfl rfl
      · rw [hp_accept st p now plat plon r0 l hlat hlon hid hrp hl hcond hsp] at hr'
        rw [setRider_lookup] at hr'
        by_cases hip : i = p.id
        · rw [if_pos hip] at hr'
          injection hr' with h
          rw [hip, hrp] at hr
          injection hr with h2
          have hd := acceptSample_distance st.challenges r0 plat plon
            (haversineMeters l.lat l.lon plat plon) (tsOf p.ts now) now
          have hs := acceptSample_score_ge st.challenges r0 plat plon
            (haversineMeters l.lat l.lon plat plon) (tsOf p.ts now) now hchal
          have hm := haversineMeters_nonneg l.lat l.lon plat plon
          obtain ⟨e1, e2, -⟩ := rider_upd_last_fields
            (acceptSample st.challenges r0 plat plon
              (haversineMeters l.lat l.lon plat plon) (tsOf p.ts now) now).rider
            (some ⟨plat, plon, tsOf p.ts now⟩) now
          rw [← h2, ← h]
          constructor
          · rw [e1, hd, orZero_eq]
            linarith
          · rw [e2]
            exact hs
        · rw [if_neg hip] at hr'
          exact triv r' hr'
    · rw [hp_refresh_some st p now plat plon r0 l hlat hlon hid hrp hl hcond] at hr'
      exact fromSet _ hr' rfl rfl

theorem handlePosition_challenges (st : ServerState) (payload : Option Payload) (now : ℤ) :
    (handlePosition st payload now).1.challenges = st.challenges := by
  match payload with
  | none => rfl
  | some p =>
    rcases hlat : p.lat with _ | plat
    · rw [hp_invalid_lat st p now hlat]
    rcases hlon : p.lon with _ | plon
    · rw [hp_invalid_lon st p now hlon]
    by_cases hid : p.id = ""
    · rw [hp_invalid_id st p now hid]
    rcases hrp : st.riders p.id with _ | r0
    · rw [hp_unknown st p now plat plon hlat hlon hid hrp]
    rcases hl : r0.last with _ | l
    · rw [hp_refresh_none st p now plat plon r0 hlat hlon hid hrp hl]
      rfl
    by_cases hcond : l.ts ≠ 0 ∧ l.ts < tsOf p.ts now
    · by_cases hsp : MAX_SPEED_KMH <
          impliedSpeedKmh (haversineMeters l.lat l.lon plat plon) (tsOf p.ts now - l.ts)
      · rw [hp_speed st p now plat plon r0 l hlat hlon hid hrp hl hcond hsp]
        rfl
      · rw [hp_accept st p now plat plon r0 l hlat hlon hid hrp hl hcond hsp]
        rfl
    · rw [hp_refresh_some st p now plat plon r0 l hlat hlon hid hrp hl hcond]
      rfl

theorem handlePosition_preserves (st : ServerState) (payload : Option Payload) (now : ℤ)
    (i : String) (r : Rider) (hr : st.riders i = some r) :
    ∃ x, (handlePosition st payload now).1.riders i = some x := by
  have fromSet : ∀ (j : String) (x : Rider), ∃ y, (setRider st j x).riders i = some y := by
    intro j x
    rw [setRider_lookup]
    by_cases hij : i = j
    · exact ⟨x, if_pos hij⟩
    · exact ⟨r, by rw [if_neg hij]; exact hr⟩
  match payload with
  | none => exact ⟨r, hr⟩
  | some p =>
    rcases hlat : p.lat with _ | plat
    · rw [hp_invalid_lat st p now hlat]
      exact ⟨r, hr⟩
    rcases hlon : p.lon with _ | plon
    · rw [hp_invalid_lon st p now hlon]
      exact ⟨r, hr⟩
    by_cases hid : p.id = ""
    · rw [hp_invalid_id st p now hid]
      exact ⟨r, hr⟩
    rcases hrp : st.riders p.id with _ | r0
    · rw [hp_unknown st p now plat plon hlat hlon hid hrp]
      exact ⟨r, hr⟩
    rcases hl : r0.last with _ | l
    · rw [hp_refresh_none st p now plat plon r0 hlat hlon hid hrp hl]
      exact fromSet _ _
    by_cases hcond : l.ts ≠ 0 ∧ l.ts < tsOf p.ts now
    · by_cases hsp : MAX_SPEED_KMH <
          impliedSpeedKmh (haversineMeters l.lat l.lon plat plon) (tsOf p.ts now - l.ts)
      · rw [hp_speed st p now plat plon r0 l hlat hlon hid hrp hl hcond hsp]
        exact fromSet _ _
      · rw [hp_accept st p now plat plon r0 l hlat hlon hid hrp hl hcond hsp]
        exact fromSet _ _
    · rw [hp_refresh_some st p now plat plon r0 l hlat hlon hid hrp hl hcond]
      exact fromSet _ _

/-- C1: for a rider with a stored `lastPosition` (nonzero timestamp) and a
sample whose timestamp is strictly greater, if the implied speed
(haversine distance over elapsed seconds, times 3.6) exceeds 140 km/h then
`handlePosition` rejects with reason `"speed"`, increments `suspiciousCount`
by exactly 1, leaves `lastPosition`, `cumulativeDistanceMeters`, `score` and
`badges` unchanged, broadcasts nothing, and touches no other rider. -/
theorem speed_gate (st : ServerState) (p : Payload) (now : ℤ)
    (plat plon : ℝ) (r : Rider) (l : Pos)
    (hlat : p.lat = some plat) (hlon : p.lon = some plon) (hid : p.id ≠ "")
    (hr : st.riders p.id = some r) (hl : r.last = some l) (hl0 : l.ts ≠ 0)
    (hts : l.ts < tsOf p.ts now)
    (hsp : MAX_SPEED_KMH <
      impliedSpeedKmh (haversineMeters l.lat l.lon plat plon) (tsOf p.ts now - l.ts)) :
    (handlePosition st (some p) now).2.1 = ⟨false, some "speed", none⟩ ∧
    (handlePosition st (some p) now).2.2 = [] ∧
    (∃ r', (handlePosition st (some p) now).1.riders p.id = some r' ∧
      r'.last = r.last ∧ r'.distance = r.distance ∧ r'.score = r.score ∧
      r'.badges = r.badges ∧ r'.challenges = r.challenges ∧
      r'.suspicious = r.suspicious + 1) ∧
    (∀ j, j ≠ p.id → (handlePosition st (some p) now).1.riders j = st.riders j) := by
  rw [hp_speed st p now plat plon r l hlat hlon hid hr hl ⟨hl0, hts⟩ hsp]
  refine ⟨rfl, rfl, ⟨{ r with suspicious := r.suspicious + 1 }, ?_, rfl, rfl, rfl, rfl, rfl, rfl⟩, ?_⟩
  · rw [setRider_lookup, if_pos rfl]
  · intro j hj
    rw [setRider_lookup, if_neg hj]

/-- Concrete rider used by several witnesses: one stored fix at `(0,0)`,
timestamp 1000, distance 500 m, score 20, no badges, no challenge progress. -/
def wRider : Rider := ⟨"r1", "Ann", some ⟨0, 0, 1000⟩, [], 500, 20, [], fun _ => none, 0, 0⟩

/-- Concrete server state used by several witnesses: the single rider
`wRider` and the two seeded challenges. -/
def wState : ServerState := ⟨fun s => if s = "r1" then some wRider else none, defaultChallenges⟩

theorem speed_gate_witness :
    MAX_SPEED_KMH < impliedSpeedKmh (haversineMeters 0 0 180 0) (tsOf (some 3601000) 7 - 1000) ∧
    (handlePosition wState (some ⟨"r1", some 180, some 0, some 3601000⟩) 7).2.1 =
      ⟨false, some "speed", none⟩ ∧
    (handlePosition wState (some ⟨"r1", some 180, some 0, some 3601000⟩) 7).2.2 = [] := by
  have hsp : MAX_SPEED_KMH <
      impliedSpeedKmh (haversineMeters 0 0 180 0) (tsOf (some 3601000) 7 - 1000) := by
    rw [haversineMeters_antipodal]
    unfold impliedSpeedKmh MAX_SPEED_KMH tsOf
    norm_num
    nlinarith [Real.pi_gt_three]
  have h := speed_gate wState ⟨"r1", some 180, some 0, some 3601000⟩ 7 180 0 wRider ⟨0, 0, 1000⟩
    rfl rfl (by decide) rfl rfl (by decide) (by decide) hsp
  exact ⟨hsp, h.1, h.2.1⟩

/-- C2: over any sequence of processed samples (accepted or rejected),
for every rider the fields `cumulativeDistanceMeters` and `score` are non-decreasing,
provided every configured challenge target is non-negative (the data model
requires positive targets; the seeded ones are 1000 m and 5000 m). -/
theorem distance_score_monotone (st : ServerState) (samples : List (Payload × ℤ))
    (i : String) (r r' : Rider)
    (hchal : ∀ c ∈ st.challenges, 0 ≤ c.targetMeters)
    (hr : st.riders i = some r)
    (hr' : (processList st samples).riders i = some r') :
    r.distance ≤ r'.distance ∧ r.score ≤ r'.score := by
  induction samples generalizing st r with
  | nil =>
    simp only [processList, List.foldl_nil] at hr'
    rw [hr] at hr'
    injection hr' with h
    subst h
    exact ⟨le_refl _, le_refl _⟩
  | cons s rest ih =>
    obtain ⟨p, nw⟩ := s
    obtain ⟨r1, hr1⟩ := handlePosition_preserves st (some p) nw i r hr
    have step := handlePosition_rider_mono st (some p) nw hchal i r r1 hr hr1
    have hch1 : ∀ c ∈ (handlePosition st (some p) nw).1.challenges, 0 ≤ c.targetMeters := by
      rw [handlePosition_challenges]
      exact hchal
    have hr2 : (processList (handlePosition st (some p) nw).1 rest).riders i = some r' := by
      simpa only [processList, List.foldl_cons] using hr'
    have tailm := ih (handlePosition st (some p) nw).1 r1 hch1 hr1 hr2
    exact ⟨le_trans step.1 tailm.1, le_trans step.2 tailm.2⟩

theorem distance_score_monotone_witness :
    (∀ c ∈ wState.challenges, 0 ≤ c.targetMeters) ∧
    wState.riders "r1" = some wRider ∧
    (processList wState [(⟨"r1", some 0, some 0, some 500⟩, 99)]).riders "r1" =
      some { wRider with last := some ⟨0, 0, 500⟩, updatedAt := 99 } ∧
    (wRider.distance ≤ ({ wRider with last := some ⟨0, 0, 500⟩, updatedAt := 99 } : Rider).distance ∧
     wRider.score ≤ ({ wRider with last := some ⟨0, 0, 500⟩, updatedAt := 99 } : Rider).score) := by
  have hchal : ∀ c ∈ wState.challenges, 0 ≤ c.targetMeters := by
    intro c hc
    fin_cases hc <;> norm_num [daily_1km, weekly_5km]
  exact ⟨hchal, rfl, rfl,
    distance_score_monotone wState [(⟨"r1", some 0, some 0, some 500⟩, 99)] "r1"
      wRider { wRider with last := some ⟨0, 0, 500⟩, updatedAt := 99 } hchal rfl rfl⟩

/-- C8: for non-negative `prevDistance ≤ newDistance`, `awardPointsPerKm`
returns `kmsGained = max 0 (⌊newDistance/1000⌋ - ⌊prevDistance/1000⌋)` and
`pointsGained = kmsGained * 10`, and adds exactly `pointsGained` to the
score of the rider. -/
theorem award_points_per_km (score prevDistance newDistance : ℝ)
    (h0 : 0 ≤ prevDistance) (h1 : prevDistance ≤ newDistance) :
    (awardPointsPerKm score prevDistance newDistance).kmsGained =
      max 0 (⌊newDistance / 1000⌋ - ⌊prevDistance / 1000⌋) ∧
    (awardPointsPerKm score prevDistance newDistance).pointsGained =
      max 0 (⌊newDistance / 1000⌋ - ⌊prevDistance / 1000⌋) * 10 ∧
    (awardPointsPerKm score prevDistance newDistance).score =
      score + ((max 0 (⌊newDistance / 1000⌋ - ⌊prevDistance / 1000⌋) * 10 : ℤ) : ℝ) := by
  unfold awardPointsPerKm POINTS_PER_KM
  dsimp only
  simp only [orZero_eq]
  refine ⟨by trivial, by trivial, ?_⟩
  split_ifs with h
  · rfl
  · simp only [not_not] at h
    rw [h]
    simp

theorem award_points_per_km_witness :
    (0 : ℝ) ≤ 500 ∧ (500 : ℝ) ≤ 2500 ∧
    (awardPointsPerKm 7 500 2500).kmsGained = 2 ∧
    (awardPointsPerKm 7 500 2500).pointsGained = 20 ∧
    (awardPointsPerKm 7 500 2500).score = 27 := by
  have h := award_points_per_km 7 500 2500 (by norm_num) (by norm_num)
  have hf1 : ⌊(2500 : ℝ) / 1000⌋ = 2 := by
    rw [Int.floor_eq_iff]
    norm_num
  have hf2 : ⌊(500 : ℝ) / 1000⌋ = 0 := by
    rw [Int.floor_eq_iff]
    norm_num
  refine ⟨by norm_num, by norm_num, ?_, ?_, ?_⟩
  · rw [h.1, hf1, hf2]
    rfl
  · rw [h.2.1, hf1, hf2]
    rfl
  · rw [h.2.2, hf1, hf2]
    norm_num

/-- A sequence of samples each of which, at the moment it is processed, is a
valid sample for a known rider with a stored fix whose timestamp is at least
the timestamp of the sample: duplicate or out-of-order refreshes. -/
def allStale : ServerState → List (Payload × ℤ) → Prop
  | _, [] => True
  | st, (p, now) :: rest =>
      (∃ r l plat plon, p.lat = some plat ∧ p.lon = some plon ∧ p.id ≠ "" ∧
        st.riders p.id = some r ∧ r.last = some l ∧ tsOf p.ts now ≤ l.ts) ∧
      allStale (handlePosition st (some p) now).1 rest

theorem stale_seq (samples : List (Payload × ℤ)) : ∀ st : ServerState, allStale st samples →
    ∀ i r, st.riders i = some r →
      ∃ r', (processList st samples).riders i = some r' ∧
        r'.distance = r.distance ∧ r'.score = r.score := by
  induction samples with
  | nil =>
    intro st _ i r hr
    exact ⟨r, by simpa only [processList, List.foldl_nil] using hr, rfl, rfl⟩
  | cons s rest ih =>
    obtain ⟨p, now⟩ := s
    intro st h i r hr
    obtain ⟨⟨r0, l0, plat, plon, hlat, hlon, hid, hr0, hl0, hts⟩, hrest⟩ := h
    have hstep := hp_refresh_some st p now plat plon r0 l0 hlat hlon hid hr0 hl0
      (fun hc => absurd hc.2 (not_lt.mpr hts))
    have hpl : processList st ((p, now) :: rest) =
        processList (handlePosition st (some p) now).1 rest := by
      simp only [processList, List.foldl_cons]
    rw [hpl]
    by_cases hip : i = p.id
    · have hre : r0 = r := by
        rw [hip] at hr
        rw [hr] at hr0
        injection hr0 with hinj
        exact hinj.symm
      have hri : (handlePosition st (some p) now).1.riders i =
          some { r0 with last := some ⟨plat, plon, tsOf p.ts now⟩, updatedAt := now } := by
        rw [hstep]
        dsimp only
        rw [setRider_lookup, if_pos hip]
      obtain ⟨r', hr', hd, hs⟩ := ih (handlePosition st (some p) now).1 hrest i _ hri
      exact ⟨r', hr', by rw [hd, ← hre], by rw [hs, ← hre]⟩
    · have hri : (handlePosition st (some p) now).1.riders i = some r := by
        rw [hstep]
        dsimp only
        rw [setRider_lookup, if_neg hip]
        exact hr
      exact ih (handlePosition st (some p) now).1 hrest i r hri

/-- C5: a sample whose timestamp does not exceed the stored one is accepted
as a pure position refresh: the acknowledgment is positive, `lastPosition`
moves to the new fix, nothing is broadcast, and distance and score are
untouched; consequently any sequence of such duplicate or out-of-order
samples leaves `cumulativeDistanceMeters` (and `score`) of every rider
exactly unchanged — no double-counting, no backward movement. -/
theorem stale_samples_no_double_count :
    (∀ (st : ServerState) (p : Payload) (now : ℤ) (plat plon : ℝ) (r : Rider) (l : Pos),
      p.lat = some plat → p.lon = some plon → p.id ≠ "" →
      st.riders p.id = some r → r.last = some l → tsOf p.ts now ≤ l.ts →
      handlePosition st (some p) now =
        (setRider st p.id { r with last := some ⟨plat, plon, tsOf p.ts now⟩, updatedAt := now },
         ⟨true, none, some r.id⟩, [])) ∧
    (∀ (st : ServerState) (samples : List (Payload × ℤ)), allStale st samples →
      ∀ i r, st.riders i = some r →
        ∃ r', (processList st samples).riders i = some r' ∧
          r'.distance = r.distance ∧ r'.score = r.score) := by
  constructor
  · intro st p now plat plon r l hlat hlon hid hr hl hts
    exact hp_refresh_some st p now plat plon r l hlat hlon hid hr hl
      (fun hc => absurd hc.2 (not_lt.mpr hts))
  · intro st samples h i r hr
    exact stale_seq samples st h i r hr

theorem stale_samples_no_double_count_witness :
    allStale wState [(⟨"r1", some 5, some 6, some 500⟩, 99)] ∧
    wState.riders "r1" = some wRider ∧
    ∃ r', (processList wState [(⟨"r1", some 5, some 6, some 500⟩, 99)]).riders "r1" = some r' ∧
      r'.distance = wRider.distance ∧ r'.score = wRider.score := by
  have hstale : allStale wState [(⟨"r1", some 5, some 6, some 500⟩, 99)] := by
    refine ⟨⟨wRider, ⟨0, 0, 1000⟩, 5, 6, rfl, rfl, by decide, rfl, rfl, by decide⟩, trivial⟩
  exact ⟨hstale, rfl,
    stale_samples_no_double_count.2 wState [(⟨"r1", some 5, some 6, some 500⟩, 99)] hstale
      "r1" wRider rfl⟩

theorem rolloverProg_id (chal : Challenge) (t : ℤ) (prog : Prog)
    (hkey : (chal.period = "daily" ∧ prog.lastReset = some (dayKey t)) ∨
            (chal.period = "weekly" ∧ prog.lastReset = some (weekKey t))) :
    rolloverProg chal t prog = prog := by
  unfold rolloverProg
  rcases hkey with ⟨hp, hk⟩ | ⟨hp, hk⟩
  · rw [if_pos hp]
    dsimp only
    rw [if_neg (not_not_intro hk)]
  · rw [if_neg (by rw [hp]; decide), if_pos hp]
    dsimp only
    rw [if_neg (not_not_intro hk)]

theorem challengeStep_completed_eq (now t : ℤ) (d : ℝ) (chal : Challenge)
    (r : Rider) (evs : List CEvent) (prog : Prog)
    (hprog : r.challenges chal.id = some prog)
    (hfix : rolloverProg chal t prog = prog)
    (hcomp : prog.completed = true) :
    challengeStep now t d chal (r, evs) =
      ({ r with challenges := fun s => if s = chal.id then some prog else r.challenges s },
       evs) := by
  unfold challengeStep
  dsimp only
  rw [hprog]
  simp only [Option.getD_some]
  rw [hfix, if_pos hcomp]

/-- C6: on every accepted sample with timestamp `t`, a stored challenge
progress is reset (`progressMeters = 0`, `completed = false`, key restamped)
exactly when the computed window key differs from the stored one; the daily
key is the UTC calendar date of `t` (`dayKey`), the weekly key is the UTC
date of the Monday on or before `t` (at most 6 days before `t`, and a
Monday); progress never carries over across windows. -/
theorem window_rollover (chal : Challenge) (t : ℤ) (prog : Prog) :
    (chal.period = "daily" →
      ((prog.lastReset ≠ some (dayKey t) →
        rolloverProg chal t prog =
          { prog with progressMeters := 0, lastReset := some (dayKey t), completed := false }) ∧
       (prog.lastReset = some (dayKey t) → rolloverProg chal t prog = prog))) ∧
    (chal.period = "weekly" →
      ((prog.lastReset ≠ some (weekKey t) →
        rolloverProg chal t prog =
          { prog with progressMeters := 0, lastReset := some (weekKey t), completed := false }) ∧
       (prog.lastReset = some (weekKey t) → rolloverProg chal t prog = prog))) ∧
    weekKey t ≤ dayKey t ∧ dayKey t - weekKey t < 7 ∧ (weekKey t + 4) % 7 = 1 := by
  refine ⟨?_, ?_, weekKey_le_dayKey t, dayKey_sub_weekKey_lt_seven t, weekKey_is_monday t⟩
  · intro hd
    constructor
    · intro hne
      unfold rolloverProg
      rw [if_pos hd]
      dsimp only
      rw [if_pos hne]
    · intro heq
      exact rolloverProg_id chal t prog (Or.inl ⟨hd, heq⟩)
  · intro hw
    constructor
    · intro hne
      unfold rolloverProg
      rw [if_neg (by rw [hw]; decide), if_pos hw]
      dsimp only
      rw [if_pos hne]
    · intro heq
      exact rolloverProg_id chal t prog (Or.inr ⟨hw, heq⟩)

theorem window_rollover_witness :
    daily_1km.period = "daily" ∧
    initProg.lastReset ≠ some (dayKey 99) ∧
    rolloverProg daily_1km 99 initProg =
      { initProg with progressMeters := 0, lastReset := some (dayKey 99), completed := false } := by
  have h := ((window_rollover daily_1km 99 initProg).1 rfl).1 (by decide)
  exact ⟨rfl, by decide, h⟩

/-- Rider used by the challenge witnesses: 300 m of progress on the daily
challenge in the window of day 0, not yet completed. -/
def wRiderChal : Rider :=
  ⟨"r1", "Ann", some ⟨0, 0, 1000⟩, [], 500, 20, [],
    fun s => if s = "daily_1km" then some ⟨300, some 0, false, none⟩ else none, 0, 0⟩

/-- C7: a challenge completes exactly once per window: when the accumulated
progress first reaches the target, one `challenge_completed` event carrying
`⌊targetMeters/1000⌋ * 5` bonus points is emitted and the bonus is added to
the score once; while the stored progress is already completed for the
current window, further samples emit no event and add no bonus. -/
theorem completion_bonus_once (now t : ℤ) (d : ℝ) (chal : Challenge)
    (r : Rider) (evs : List CEvent) :
    ((rolloverProg chal t ((r.challenges chal.id).getD initProg)).completed = false →
      chal.targetMeters ≤
        (rolloverProg chal t ((r.challenges chal.id).getD initProg)).progressMeters + d →
      (challengeStep now t d chal (r, evs)).2 =
        evs ++ [⟨chal.id, r.id, ⌊chal.targetMeters / 1000⌋ * 5⟩] ∧
      (challengeStep now t d chal (r, evs)).1.score =
        r.score + ((⌊chal.targetMeters / 1000⌋ * 5 : ℤ) : ℝ) ∧
      (challengeStep now t d chal (r, evs)).1.challenges chal.id =
        some ⟨(rolloverProg chal t ((r.challenges chal.id).getD initProg)).progressMeters + d,
          (rolloverProg chal t ((r.challenges chal.id).getD initProg)).lastReset,
          true, some now⟩) ∧
    (∀ prog : Prog, r.challenges chal.id = some prog → prog.completed = true →
      ((chal.period = "daily" ∧ prog.lastReset = some (dayKey t)) ∨
       (chal.period = "weekly" ∧ prog.lastReset = some (weekKey t))) →
      (challengeStep now t d chal (r, evs)).2 = evs ∧
      (challengeStep now t d chal (r, evs)).1.score = r.score) := by
  constructor
  · intro hnc htar
    unfold challengeStep
    dsimp only
    rw [if_neg (by rw [hnc]; exact Bool.false_ne_true), if_pos htar]
    refine ⟨rfl, ?_, ?_⟩
    · dsimp only
      rw [orZero_eq]
    · dsimp only
      rw [if_pos rfl]
  · intro prog hprog hcomp hkey
    rw [challengeStep_completed_eq now t d chal r evs prog hprog
      (rolloverProg_id chal t prog hkey) hcomp]
    exact ⟨rfl, rfl⟩

theorem completion_bonus_once_witness :
    (rolloverProg daily_1km 5 ((wRiderChal.challenges "daily_1km").getD initProg)).completed
      = false ∧
    daily_1km.targetMeters ≤
      (rolloverProg daily_1km 5 ((wRiderChal.challenges "daily_1km").getD initProg)).progressMeters
        + 800 ∧
    (challengeStep 42 5 800 daily_1km (wRiderChal, [])).2 =
      [⟨"daily_1km", "r1", ⌊daily_1km.targetMeters / 1000⌋ * 5⟩] ∧
    (challengeStep 42 5 800 daily_1km (wRiderChal, [])).1.score =
      wRiderChal.score + ((⌊daily_1km.targetMeters / 1000⌋ * 5 : ℤ) : ℝ) := by
  have h1 : (rolloverProg daily_1km 5
      ((wRiderChal.challenges "daily_1km").getD initProg)).completed = false := by decide
  have h2 : daily_1km.targetMeters ≤
      (rolloverProg daily_1km 5
        ((wRiderChal.challenges "daily_1km").getD initProg)).progressMeters + 800 := by
    change (1000 : ℝ) ≤ 300 + 800
    norm_num
  have h := (completion_bonus_once 42 5 800 daily_1km wRiderChal []).1 h1 h2
  exact ⟨h1, h2, by simpa using h.1, h.2.1⟩

/-- C10: while a stored challenge progress is completed for the current
window (the stored key equals the one computed from the sample timestamp),
an accepted sample leaves that progress record entirely unchanged —
`progressMeters` stays frozen at its completion-time value for any distance
delta `d` — and the rider distance field and other challenges are not
affected by this challenge step. -/
theorem completed_window_frozen (now t : ℤ) (d : ℝ) (chal : Challenge)
    (r : Rider) (evs : List CEvent) (prog : Prog)
    (hprog : r.challenges chal.id = some prog)
    (hcomp : prog.completed = true)
    (hkey : (chal.period = "daily" ∧ prog.lastReset = some (dayKey t)) ∨
            (chal.period = "weekly" ∧ prog.lastReset = some (weekKey t))) :
    (challengeStep now t d chal (r, evs)).1.challenges chal.id = some prog ∧
    (∀ j, j ≠ chal.id → (challengeStep now t d chal (r, evs)).1.challenges j = r.challenges j) ∧
    (challengeStep now t d chal (r, evs)).1.distance = r.distance ∧
    (challengeStep now t d chal (r, evs)).1.score = r.score ∧
    (challengeStep now t d chal (r, evs)).2 = evs := by
  rw [challengeStep_completed_eq now t d chal r evs prog hprog
    (rolloverProg_id chal t prog hkey) hcomp]
  refine ⟨by dsimp only; rw [if_pos rfl], ?_, rfl, rfl, rfl⟩
  intro j hj
  dsimp only
  rw [if_neg hj]

/-- Rider with the daily challenge already completed in the window of day 0. -/
def wRiderDone : Rider :=
  ⟨"r1", "Ann", some ⟨0, 0, 1000⟩, [], 500, 20, [],
    fun s => if s = "daily_1km" then some ⟨1200, some 0, true, some 3⟩ else none, 0, 0⟩

theorem completed_window_frozen_witness :
    wRiderDone.challenges "daily_1km" = some ⟨1200, some 0, true, some 3⟩ ∧
    (challengeStep 42 5 800 daily_1km (wRiderDone, [])).1.challenges "daily_1km" =
      some ⟨1200, some 0, true, some 3⟩ ∧
    (challengeStep 42 5 800 daily_1km (wRiderDone, [])).2 = [] := by
  have h := completed_window_frozen 42 5 800 daily_1km wRiderDone []
    ⟨1200, some 0, true, some 3⟩ rfl rfl (Or.inl ⟨rfl, by decide⟩)
  exact ⟨rfl, h.1, h.2.2.2.2⟩

theorem badgeFoldStep_cases (prev nd : ℝ) (acc : List String × List BadgeEvent) (m : ℕ) :
    (¬(orZero prev < (m : ℝ) ∧ (m : ℝ) ≤ nd) → badgeFoldStep prev nd acc m = acc) ∧
    ((orZero prev < (m : ℝ) ∧ (m : ℝ) ≤ nd) → badgeId m ∈ acc.1 →
      badgeFoldStep prev nd acc m = acc) ∧
    ((orZero prev < (m : ℝ) ∧ (m : ℝ) ≤ nd) → badgeId m ∉ acc.1 →
      badgeFoldStep prev nd acc m = (acc.1 ++ [badgeId m], acc.2 ++ [badgeEventFor m])) := by
  refine ⟨fun h => ?_, fun h hd => ?_, fun h hd => ?_⟩
  · unfold badgeFoldStep
    rw [if_neg h]
  · unfold badgeFoldStep
    rw [if_pos h, if_pos hd]
  · unfold badgeFoldStep
    rw [if_pos h, if_neg hd]

theorem badgeFold_shape (prev nd : ℝ) (ms : List ℕ) :
    ∀ acc : List String × List BadgeEvent,
      ∃ delta : List BadgeEvent,
        (ms.foldl (badgeFoldStep prev nd) acc).1 = acc.1 ++ delta.map BadgeEvent.id ∧
        (ms.foldl (badgeFoldStep prev nd) acc).2 = acc.2 ++ delta := by
  induction ms with
  | nil =>
    intro acc
    exact ⟨[], by simp⟩
  | cons m ms ih =>
    intro acc
    simp only [List.foldl_cons]
    by_cases hc : orZero prev < (m : ℝ) ∧ (m : ℝ) ≤ nd
    · by_cases hd : badgeId m ∈ acc.1
      · rw [(badgeFoldStep_cases prev nd acc m).2.1 hc hd]
        exact ih acc
      · rw [(badgeFoldStep_cases prev nd acc m).2.2 hc hd]
        obtain ⟨delta, h1, h2⟩ := ih (acc.1 ++ [badgeId m], acc.2 ++ [badgeEventFor m])
        refine ⟨badgeEventFor m :: delta, ?_, ?_⟩
        · rw [h1]
          simp [badgeEventFor]
        · rw [h2]
          simp
    · rw [(badgeFoldStep_cases prev nd acc m).1 hc]
      exact ih acc

theorem badgeFold_mono (prev nd : ℝ) (ms : List ℕ) (acc : List String × List BadgeEvent)
    (x : String) (hx : x ∈ acc.1) : x ∈ (ms.foldl (badgeFoldStep prev nd) acc).1 := by
  obtain ⟨delta, h1, -⟩ := badgeFold_shape prev nd ms acc
  rw [h1]
  exact List.mem_append_left _ hx

theorem badgeFold_mem_of (prev nd : ℝ) (ms : List ℕ) :
    ∀ (acc : List String × List BadgeEvent) (b : BadgeEvent),
      b ∈ (ms.foldl (badgeFoldStep prev nd) acc).2 →
      b ∈ acc.2 ∨ ∃ m ∈ ms, b = badgeEventFor m ∧
        (orZero prev < (m : ℝ) ∧ (m : ℝ) ≤ nd) ∧ badgeId m ∉ acc.1 := by
  induction ms with
  | nil =>
    intro acc b hb
    exact Or.inl (by simpa using hb)
  | cons m ms ih =>
    intro acc b hb
    simp only [List.foldl_cons] at hb
    by_cases hc : orZero prev < (m : ℝ) ∧ (m : ℝ) ≤ nd
    · by_cases hd : badgeId m ∈ acc.1
      · rw [(badgeFoldStep_cases prev nd acc m).2.1 hc hd] at hb
        rcases ih acc b hb with h | ⟨m1, hm1, he, hc1, hn1⟩
        · exact Or.inl h
        · exact Or.inr ⟨m1, List.mem_cons_of_mem m hm1, he, hc1, hn1⟩
      · rw [(badgeFoldStep_cases prev nd acc m).2.2 hc hd] at hb
        rcases ih _ b hb with h | ⟨m1, hm1, he, hc1, hn1⟩
        · rcases List.mem_append.mp h with h2 | h2
          · exact Or.inl h2
          · refine Or.inr ⟨m, List.mem_cons_self m ms, by simpa using h2, hc, hd⟩
        · refine Or.inr ⟨m1, List.mem_cons_of_mem m hm1, he, hc1, fun hx => hn1 ?_⟩
          exact List.mem_append_left _ hx
    · rw [(badgeFoldStep_cases prev nd acc m).1 hc] at hb
      rcases ih acc b hb with h | ⟨m1, hm1, he, hc1, hn1⟩
      · exact Or.inl h
      · exact Or.inr ⟨m1, List.mem_cons_of_mem m hm1, he, hc1, hn1⟩

theorem badgeFold_attains (prev nd : ℝ) (ms : List ℕ) :
    ∀ (acc : List String × List BadgeEvent) (m : ℕ), m ∈ ms →
      (orZero prev < (m : ℝ) ∧ (m : ℝ) ≤ nd) →
      badgeId m ∈ (ms.foldl (badgeFoldStep prev nd) acc).1 := by
  induction ms with
  | nil =>
    intro acc m hm
    exact absurd hm (List.not_mem_nil m)
  | cons m0 ms ih =>
    intro acc m hm hc
    simp only [List.foldl_cons]
    rcases List.mem_cons.mp hm with rfl | hm1
    · by_cases hd : badgeId m ∈ acc.1
      · rw [(badgeFoldStep_cases prev nd acc m).2.1 hc hd]
        exact badgeFold_mono prev nd ms acc _ hd
      · rw [(badgeFoldStep_cases prev nd acc m).2.2 hc hd]
        exact badgeFold_mono prev nd ms _ _ (by simp)
    · exact ih (badgeFoldStep prev nd acc m0) m hm1 hc

theorem badgeFold_nodup (prev nd : ℝ) (ms : List ℕ) :
    ∀ acc : List String × List BadgeEvent, acc.1.Nodup →
      (ms.foldl (badgeFoldStep prev nd) acc).1.Nodup := by
  induction ms with
  | nil =>
    intro acc h
    simpa using h
  | cons m ms ih =>
    intro acc h
    simp only [List.foldl_cons]
    by_cases hc : orZero prev < (m : ℝ) ∧ (m : ℝ) ≤ nd
    · by_cases hd : badgeId m ∈ acc.1
      · rw [(badgeFoldStep_cases prev nd acc m).2.1 hc hd]
        exact ih acc h
      · rw [(badgeFoldStep_cases prev nd acc m).2.2 hc hd]
        refine ih _ ?_
        simp [List.nodup_append, h, hd]
    · rw [(badgeFoldStep_cases prev nd acc m).1 hc]
      exact ih acc h

/-- C9: for every milestone `m` of the fixed set, `checkAndAwardBadges`
emits a `badge_m` event exactly when `prevDistance < m ≤ newDistance` and
`badge_m` is not already held; badges are additive only (the stored list is
the old one plus the ids of the newly emitted events), no-duplication is
preserved, and replaying the same delta against the updated badge list
awards nothing. -/
theorem badge_idempotent (badges : List String) (prev nd : ℝ) (m : ℕ)
    (hm : m ∈ BADGE_MILESTONES_METERS) :
    ((∃ b ∈ (checkAndAwardBadges badges prev nd).newly, b.id = badgeId m) ↔
      (orZero prev < (m : ℝ) ∧ (m : ℝ) ≤ nd ∧ badgeId m ∉ badges)) ∧
    (checkAndAwardBadges badges prev nd).badges =
      badges ++ (checkAndAwardBadges badges prev nd).newly.map BadgeEvent.id ∧
    (badges.Nodup → (checkAndAwardBadges badges prev nd).badges.Nodup) ∧
    (checkAndAwardBadges (checkAndAwardBadges badges prev nd).badges prev nd).newly = [] := by
  have hids : (BADGE_MILESTONES_METERS.map badgeId).Nodup := by decide
  have hb_eq : (checkAndAwardBadges badges prev nd).badges =
      (BADGE_MILESTONES_METERS.foldl (badgeFoldStep prev nd) (badges, [])).1 := rfl
  have hn_eq : (checkAndAwardBadges badges prev nd).newly =
      (BADGE_MILESTONES_METERS.foldl (badgeFoldStep prev nd) (badges, [])).2 := rfl
  obtain ⟨delta, hs1, hs2⟩ := badgeFold_shape prev nd BADGE_MILESTONES_METERS (badges, [])
  simp only [List.nil_append] at hs2
  refine ⟨⟨?_, ?_⟩, ?_, ?_, ?_⟩
  · rintro ⟨b, hb, hid⟩
    rw [hn_eq] at hb
    rcases badgeFold_mem_of prev nd BADGE_MILESTONES_METERS (badges, []) b hb with
      h | ⟨m1, hm1, he, hc1, hn1⟩
    · exact absurd h (List.not_mem_nil b)
    · have hidm : badgeId m1 = badgeId m := by
        rw [← hid, he]
        rfl
      have : m1 = m := List.inj_on_of_nodup_map hids hm1 hm hidm
      subst this
      exact ⟨hc1.1, hc1.2, hn1⟩
  · rintro ⟨h1, h2, h3⟩
    have hin := badgeFold_attains prev nd BADGE_MILESTONES_METERS (badges, []) m hm ⟨h1, h2⟩
    rw [hs1] at hin
    rcases List.mem_append.mp hin with h | h
    · exact absurd h h3
    · obtain ⟨b, hb, hbid⟩ := List.mem_map.mp h
      exact ⟨b, by rw [hn_eq, hs2]; exact hb, hbid⟩
  · rw [hb_eq, hn_eq, hs1, hs2]
  · intro hnd
    rw [hb_eq]
    exact badgeFold_nodup prev nd BADGE_MILESTONES_METERS (badges, []) hnd
  · rw [List.eq_nil_iff_forall_not_mem]
    intro b hb
    rcases badgeFold_mem_of prev nd BADGE_MILESTONES_METERS
      ((checkAndAwardBadges badges prev nd).badges, []) b hb with
      h | ⟨m1, hm1, he, hc1, hn1⟩
    · exact absurd h (List.not_mem_nil b)
    · refine hn1 ?_
      rw [hb_eq, hs1]
      have hin := badgeFold_attains prev nd BADGE_MILESTONES_METERS (badges, []) m1 hm1 hc1
      rw [hs1] at hin
      exact hin

theorem badge_idempotent_witness :
    (1000 ∈ BADGE_MILESTONES_METERS) ∧
    (orZero 0 < ((1000 : ℕ) : ℝ) ∧ ((1000 : ℕ) : ℝ) ≤ 1500 ∧
      badgeId 1000 ∉ ([] : List String)) ∧
    ∃ b ∈ (checkAndAwardBadges [] 0 1500).newly, b.id = badgeId 1000 := by
  have hm : (1000 : ℕ) ∈ BADGE_MILESTONES_METERS := by decide
  have hc : orZero 0 < ((1000 : ℕ) : ℝ) ∧ ((1000 : ℕ) : ℝ) ≤ 1500 ∧
      badgeId 1000 ∉ ([] : List String) := by
    refine ⟨?_, ?_, by simp⟩
    · rw [orZero_eq]
      norm_num
    · norm_num
  exact ⟨hm, hc, (badge_idempotent [] 0 1500 1000 hm).1.mpr hc⟩

/-- Fresh rider with no stored fix, used by the C3 counterexample. -/
def wRiderNew : Rider := ⟨"r2", "Bob", none, [], 0, 0, [], fun _ => none, 0, 0⟩

/-- State holding only `wRiderNew`, used by the C3 counterexample. -/
def wStateNew : ServerState :=
  ⟨fun s => if s = "r2" then some wRiderNew else none, defaultChallenges⟩

theorem rider_update_broadcast_cex :
    (handlePosition wStateNew (some ⟨"r2", some 1, some 2, some 777⟩) 9).2.1.accepted = true ∧
    (handlePosition wStateNew (some ⟨"r2", some 1, some 2, some 777⟩) 9).2.2 = [] :=
  ⟨rfl, rfl⟩

/-- C3 (amended): broadcasts happen only for samples accepted on the
distance path.  (1) Every rejected sample broadcasts nothing.  (2) An
accepted first-ever sample or duplicate refresh also broadcasts nothing.
(3) A sample accepted on the distance path broadcasts a `rider_update` with
the id, name, new coordinates, rounded cumulative distance and score of the
rider, followed by a `game_event` exactly when `kmsGained > 0`, a badge was
newly earned, or a challenge completed. -/
theorem broadcast_characterization :
    (∀ (st : ServerState) (payload : Option Payload) (now : ℤ),
      (handlePosition st payload now).2.1.accepted = false →
      (handlePosition st payload now).2.2 = []) ∧
    (∀ (st : ServerState) (p : Payload) (now : ℤ) (plat plon : ℝ) (r : Rider),
      p.lat = some plat → p.lon = some plon → p.id ≠ "" → st.riders p.id = some r →
      (r.last = none ∨ ∃ l, r.last = some l ∧ ¬(l.ts ≠ 0 ∧ l.ts < tsOf p.ts now)) →
      (handlePosition st (some p) now).2.1.accepted = true ∧
      (handlePosition st (some p) now).2.2 = []) ∧
    (∀ (st : ServerState) (p : Payload) (now : ℤ) (plat plon : ℝ) (r : Rider) (l : Pos),
      p.lat = some plat → p.lon = some plon → p.id ≠ "" → st.riders p.id = some r →
      r.last = some l → l.ts ≠ 0 → l.ts < tsOf p.ts now →
      ¬(MAX_SPEED_KMH <
        impliedSpeedKmh (haversineMeters l.lat l.lon plat plon) (tsOf p.ts now - l.ts)) →
      (handlePosition st (some p) now).2.1.accepted = true ∧
      (handlePosition st (some p) now).2.2 =
        (let a := acceptSample st.challenges r plat plon
          (haversineMeters l.lat l.lon plat plon) (tsOf p.ts now) now
        Msg.riderUpdate a.rider.id a.rider.name plat plon
            (round a.rider.distance) a.rider.score ::
          (if 0 < a.kmsGained ∨ a.newBadges ≠ [] ∨ a.challengeEvents ≠ [] then
            [Msg.gameEvent a.rider.id a.rider.name a.kmsGained a.pointsGained
              a.newBadges a.challengeEvents]
          else []))) := by
  refine ⟨?_, ?_, ?_⟩
  · intro st payload now h
    match payload with
    | none => rfl
    | some p =>
      rcases hlat : p.lat with _ | plat
      · rw [hp_invalid_lat st p now hlat]
      rcases hlon : p.lon with _ | plon
      · rw [hp_invalid_lon st p now hlon]
      by_cases hid : p.id = ""
      · rw [hp_invalid_id st p now hid]
      rcases hrp : st.riders p.id with _ | r0
      · rw [hp_unknown st p now plat plon hlat hlon hid hrp]
      rcases hl : r0.last with _ | l
      · rw [hp_refresh_none st p now plat plon r0 hlat hlon hid hrp hl] at h
        simp at h
      by_cases hcond : l.ts ≠ 0 ∧ l.ts < tsOf p.ts now
      · by_cases hsp : MAX_SPEED_KMH <
            impliedSpeedKmh (haversineMeters l.lat l.lon plat plon) (tsOf p.ts now - l.ts)
        · rw [hp_speed st p now plat plon r0 l hlat hlon hid hrp hl hcond hsp]
        · rw [hp_accept st p now plat plon r0 l hlat hlon hid hrp hl hcond hsp] at h
          simp at h
      · rw [hp_refresh_some st p now plat plon r0 l hlat hlon hid hrp hl hcond] at h
        simp at h
  · intro st p now plat plon r hlat hlon hid hr hcase
    rcases hcase with hl | ⟨l, hl, hcond⟩
    · rw [hp_refresh_none st p now plat plon r hlat hlon hid hr hl]
      exact ⟨rfl, rfl⟩
    · rw [hp_refresh_some st p now plat plon r l hlat hlon hid hr hl hcond]
      exact ⟨rfl, rfl⟩
  · intro st p now plat plon r l hlat hlon hid hr hl hl0 hlt hsp
    rw [hp_accept st p now plat plon r l hlat hlon hid hr hl ⟨hl0, hlt⟩ hsp]
    exact ⟨rfl, rfl⟩

theorem broadcast_characterization_witness :
    (handlePosition wState (some ⟨"r1", some 0, some 0, some 2000⟩) 9).2.1.accepted = true ∧
    (handlePosition wState (some ⟨"r1", some 0, some 0, some 2000⟩) 9).2.2 =
      (let a := acceptSample wState.challenges wRider 0 0
        (haversineMeters 0 0 0 0) (tsOf (some 2000) 9) 9
      Msg.riderUpdate a.rider.id a.rider.name 0 0 (round a.rider.distance) a.rider.score ::
        (if 0 < a.kmsGained ∨ a.newBadges ≠ [] ∨ a.challengeEvents ≠ [] then
          [Msg.gameEvent a.rider.id a.rider.name a.kmsGained a.pointsGained
            a.newBadges a.challengeEvents]
        else [])) := by
  have hsp : ¬(MAX_SPEED_KMH <
      impliedSpeedKmh (haversineMeters 0 0 0 0) (tsOf (some 2000) 9 - 1000)) := by
    rw [haversineMeters_self]
    unfold impliedSpeedKmh MAX_SPEED_KMH
    norm_num
  exact broadcast_characterization.2.2 wState ⟨"r1", some 0, some 0, some 2000⟩ 9 0 0 wRider
    ⟨0, 0, 1000⟩ rfl rfl (by decide) rfl rfl (by decide) (by decide) hsp

/-- Rider whose stored daily-challenge window key (day 7) cannot match any
key computed from a timestamp at most `last.ts = 1000` (day 0). -/
def wRiderCex : Rider :=
  ⟨"r1", "Ann", some ⟨0, 0, 1000⟩, [], 500, 20, [],
    fun s => if s = "daily_1km" then some ⟨300, some 7, false, none⟩ else none, 0, 0⟩

/-- State holding `wRiderCex` and only the daily challenge. -/
def wStateCex : ServerState :=
  ⟨fun s => if s = "r1" then some wRiderCex else none, [daily_1km]⟩

theorem rollover_on_duplicates_cex :
    (handlePosition wStateCex (some ⟨"r1", some 1, some 2, some 500⟩) 9).2.1.accepted = true ∧
    dayKey (tsOf (some 500) 9) ≠ 7 ∧
    ((handlePosition wStateCex (some ⟨"r1", some 1, some 2, some 500⟩) 9).1.riders "r1").map
      (fun r => r.challenges "daily_1km") = some (some ⟨300, some 7, false, none⟩) :=
  ⟨rfl, by decide, rfl⟩

theorem challengeStep_reset (now t : ℤ) (d : ℝ) (chal : Challenge)
    (acc : Rider × List CEvent) (hper : chal.period = "daily")
    (hkey : ((acc.1.challenges chal.id).getD initProg).lastReset ≠ some (dayKey t)) :
    ∃ prog', (challengeStep now t d chal acc).1.challenges chal.id = some prog' ∧
      prog'.progressMeters = 0 + d ∧ prog'.lastReset = some (dayKey t) := by
  have hroll : rolloverProg chal t ((acc.1.challenges chal.id).getD initProg) =
      { (acc.1.challenges chal.id).getD initProg with
          progressMeters := 0
          lastReset := some (dayKey t)
          completed := false } := by
    unfold rolloverProg
    rw [if_pos hper]
    dsimp only
    rw [if_pos hkey]
  unfold challengeStep
  dsimp only
  rw [hroll]
  rw [if_neg (by exact Bool.false_ne_true)]
  dsimp only
  split_ifs with htar
  · exact ⟨⟨0 + d, some (dayKey t), true, some now⟩,
      by dsimp only; rw [if_pos rfl], rfl, rfl⟩
  · exact ⟨⟨0 + d, some (dayKey t), false,
        ((acc.1.challenges chal.id).getD initProg).completedAt⟩,
      by dsimp only; rw [if_pos rfl], rfl, rfl⟩

theorem acceptSample_challenges_single (chal : Challenge) (r : Rider)
    (plat plon meters : ℝ) (ts now : ℤ) (hts0 : ts ≠ 0) (hper : chal.period = "daily")
    (hkey : ((r.challenges chal.id).getD initProg).lastReset ≠ some (dayKey ts)) :
    ∃ prog', (acceptSample [chal] r plat plon meters ts now).rider.challenges chal.id =
        some prog' ∧
      prog'.progressMeters = 0 + meters ∧ prog'.lastReset = some (dayKey ts) := by
  unfold acceptSample updateChallengesForRider
  dsimp only
  rw [if_neg hts0]
  simp only [List.foldl_cons, List.foldl_nil]
  exact challengeStep_reset now ts meters chal _ hper hkey

/-- C4 (amended): the window-rollover check runs exactly on samples accepted
on the distance path (stored fix with nonzero timestamp and a strictly newer
sample timestamp), including zero-distance ones; a duplicate or out-of-order
refresh (`ts ≤` stored timestamp) is accepted but skips the challenge update
entirely, leaving every stored challenge progress unchanged even when its
window key differs from the one the sample would compute. -/
theorem rollover_check_scope :
    (∀ (st : ServerState) (p : Payload) (now : ℤ) (plat plon : ℝ) (r : Rider) (l : Pos),
      p.lat = some plat → p.lon = some plon → p.id ≠ "" → st.riders p.id = some r →
      r.last = some l → tsOf p.ts now ≤ l.ts →
      (handlePosition st (some p) now).2.1.accepted = true ∧
      ∃ r', (handlePosition st (some p) now).1.riders p.id = some r' ∧
        r'.challenges = r.challenges) ∧
    (∀ (st : ServerState) (p : Payload) (now : ℤ) (plat plon : ℝ) (r : Rider) (l : Pos)
        (chal : Challenge),
      p.lat = some plat → p.lon = some plon → p.id ≠ "" → st.riders p.id = some r →
      r.last = some l → l.ts ≠ 0 → l.ts < tsOf p.ts now →
      ¬(MAX_SPEED_KMH <
        impliedSpeedKmh (haversineMeters l.lat l.lon plat plon) (tsOf p.ts now - l.ts)) →
      st.challenges = [chal] → chal.period = "daily" → tsOf p.ts now ≠ 0 →
      ((r.challenges chal.id).getD initProg).lastReset ≠ some (dayKey (tsOf p.ts now)) →
      ∃ r' prog', (handlePosition st (some p) now).1.riders p.id = some r' ∧
        r'.challenges chal.id = some prog' ∧
        prog'.progressMeters = 0 + haversineMeters l.lat l.lon plat plon ∧
        prog'.lastReset = some (dayKey (tsOf p.ts now))) := by
  constructor
  · intro st p now plat plon r l hlat hlon hid hr hl hts
    rw [hp_refresh_some st p now plat plon r l hlat hlon hid hr hl
      (fun hc => absurd hc.2 (not_lt.mpr hts))]
    refine ⟨rfl, { r with last := some ⟨plat, plon, tsOf p.ts now⟩, updatedAt := now }, ?_, rfl⟩
    rw [setRider_lookup, if_pos rfl]
  · intro st p now plat plon r l chal hlat hlon hid hr hl hl0 hlt hsp hchs hper hts0 hkey
    rw [hp_accept st p now plat plon r l hlat hlon hid hr hl ⟨hl0, hlt⟩ hsp]
    dsimp only
    rw [hchs]
    obtain ⟨prog', hp1, hp2, hp3⟩ := acceptSample_challenges_single chal r plat plon
      (haversineMeters l.lat l.lon plat plon) (tsOf p.ts now) now hts0 hper hkey
    refine ⟨{ (acceptSample [chal] r plat plon (haversineMeters l.lat l.lon plat plon)
        (tsOf p.ts now) now).rider with
          last := some ⟨plat, plon, tsOf p.ts now⟩
          updatedAt := now },
      prog', ?_, hp1, hp2, hp3⟩
    rw [setRider_lookup, if_pos rfl]

theorem rollover_check_scope_witness :
    ((wRiderCex.challenges "daily_1km").getD initProg).lastReset ≠
      some (dayKey (tsOf (some 2000) 9)) ∧
    ∃ r' prog',
      (handlePosition wStateCex (some ⟨"r1", some 0, some 0, some 2000⟩) 9).1.riders "r1" =
        some r' ∧
      r'.challenges "daily_1km" = some prog' ∧
      prog'.progressMeters = 0 + haversineMeters 0 0 0 0 ∧
      prog'.lastReset = some (dayKey (tsOf (some 2000) 9)) := by
  have hsp : ¬(MAX_SPEED_KMH <
      impliedSpeedKmh (haversineMeters 0 0 0 0) (tsOf (some 2000) 9 - 1000)) := by
    rw [haversineMeters_self]
    unfold impliedSpeedKmh MAX_SPEED_KMH
    norm_num
  exact ⟨by decide,
    rollover_check_scope.2 wStateCex ⟨"r1", some 0, some 0, some 2000⟩ 9 0 0 wRiderCex
      ⟨0, 0, 1000⟩ daily_1km rfl rfl (by decide) rfl rfl (by decide) (by decide) hsp rfl rfl
      (by decide) (by decide)⟩

end UrbanTrack
